import Mathlib

/-!
Verification development for the unipp single-header C++ test framework
(JoaoAJMatos/unipp).  The repository contains two variants of the header:

* `src/unipp/unipp.hpp` (modelled in namespace `UnippA`): unit tests carry
  their own `Run` method with a `try`/`catch` boundary distinguishing the
  framework exception classes `unipp::Warning` and `unipp::Fail`, plus a
  `Benchmark` helper timing a callable over N iterations.
* `src/unipp.hpp` (modelled in namespace `UnippB`): suites carry a
  `SetupAndTeardownType` policy (`NONE` / `PER_TEST` / `PER_SUITE`) driving
  virtual `Setup` / `Teardown` hooks, and the `Run` loop of the suite catches every
  `std::exception` as a failure.

Test actions (`std::function<void()>` closures) are modelled by the observable
behaviour of one invocation: completing normally, throwing one of the
framework exception classes with a message, or throwing a foreign exception.
All console output and hook/action calls are recorded as an event trace, and
an uncaught C++ exception is modelled as an `Option String` escaping the call.
-/

namespace UnippA

/-- Behaviour of a zero-argument test action when it is invoked, for the
`src/unipp/unipp.hpp` variant: it returns normally, throws `unipp::Warning`
with a message, throws `unipp::Fail` with a message, or throws some other
exception (for example `std::runtime_error`) that is none of the two. -/
inductive ActionResult where
  | normal : ActionResult
  | warning : String → ActionResult
  | fail : String → ActionResult
  | other : String → ActionResult
deriving DecidableEq, Repr

/-- Observable events of a run: console lines printed by the framework and
invocations of user actions, in program order. -/
inductive Event where
  | printRunning : String → Event
  | printDescription : String → Event
  | invoke : String → Event
  | printPassed : Event
  | printWarning : String → Event
  | printFailed : String → Event
  | printSuiteHeader : String → String → Event
  | printEndSuite : Event
deriving DecidableEq, Repr

/-- Result of running a piece of the framework: the post-state of the object
the member function ran on, the emitted event trace, and the exception (with
its message) escaping the call, if any. -/
structure RunResult (α : Type) where
  post : α
  events : List Event
  thrown : Option String
deriving Repr

/-- Translation of `struct UnitTest` of `src/unipp/unipp.hpp`: a name, a
description and the zero-argument action, the action abstracted by its
behaviour on one invocation. -/
structure UnitTest where
  name : String
  description : String
  test : ActionResult
deriving DecidableEq, Repr

/-- Translation of `unipp::UnitTest::Run` (src/unipp/unipp.hpp lines
114-129): print the running/description lines, invoke the action inside
`try`, print `PASSED!` if it returns, catch `Warning` and print
`WARNING: msg`, catch `Fail` and print `FAILED: msg`; any other exception is
not caught and escapes.  The method body assigns to no member, so the
post-state is the receiver unchanged. -/
def UnitTest.Run (t : UnitTest) : RunResult UnitTest :=
  let head := [Event.printRunning t.name, Event.printDescription t.description]
  match t.test with
  | ActionResult.normal =>
      ⟨t, head ++ [Event.invoke t.name, Event.printPassed], none⟩
  | ActionResult.warning m =>
      ⟨t, head ++ [Event.invoke t.name, Event.printWarning m], none⟩
  | ActionResult.fail m =>
      ⟨t, head ++ [Event.invoke t.name, Event.printFailed m], none⟩
  | ActionResult.other e =>
      ⟨t, head ++ [Event.invoke t.name], some e⟩

/-- Translation of `class TestSuite` of `src/unipp/unipp.hpp`: a name, a
description and the ordered vector of tests built by `AddTests` (a fold
expansion pushing each argument in order). -/
structure TestSuite where
  name_ : String
  description_ : String
  tests_ : List UnitTest
deriving DecidableEq, Repr

/-- Loop body of `unipp::TestSuite::Run` (src/unipp/unipp.hpp lines 175-177):
run each test of the vector in order by calling `UnitTest::Run` on a copy; an
exception escaping one `Run` call escapes the loop, so later tests are not
reached. -/
def runTests : List UnitTest → RunResult (List UnitTest)
  | [] => ⟨[], [], none⟩
  | t :: ts =>
      let r := t.Run
      match r.thrown with
      | some e => ⟨r.post :: ts, r.events, some e⟩
      | none =>
          let rs := runTests ts
          ⟨r.post :: rs.post, r.events ++ rs.events, rs.thrown⟩

/-- Translation of `unipp::TestSuite::Run` (src/unipp/unipp.hpp lines
172-179): print the suite header, run every test in order, print `END SUITE`
after the loop.  The range-for copies each test and the body assigns to no
member, so the suite post-state is the receiver unchanged; an exception
escaping a test escapes `Run` before the `END SUITE` line. -/
def TestSuite.Run (s : TestSuite) : RunResult TestSuite :=
  let r := runTests s.tests_
  match r.thrown with
  | some e =>
      ⟨s, Event.printSuiteHeader s.name_ s.description_ :: r.events, some e⟩
  | none =>
      ⟨s, (Event.printSuiteHeader s.name_ s.description_ :: r.events)
            ++ [Event.printEndSuite], none⟩

/-- Heterogeneous argument of `unipp::TestRunner::RunAll`, which has one
variadic overload consuming a leading `TestSuite` and one consuming a leading
`UnitTest` (src/unipp/unipp.hpp lines 216-239). -/
inductive RunItem where
  | suite : TestSuite → RunItem
  | test : UnitTest → RunItem
deriving DecidableEq, Repr

/-- Dispatch of one `RunAll` argument: a suite argument runs via
`TestSuite::Run`, a test argument runs via `UnitTest::Run` (the variant A
overload calls `test.Run()` directly). -/
def runItem : RunItem → RunResult RunItem
  | RunItem.suite s =>
      let r := s.Run
      ⟨RunItem.suite r.post, r.events, r.thrown⟩
  | RunItem.test t =>
      let r := t.Run
      ⟨RunItem.test r.post, r.events, r.thrown⟩

/-- Translation of the recursion of `unipp::TestRunner::RunAll`
(src/unipp/unipp.hpp lines 195, 216-239): run the first argument, then recurse
on the rest; the empty overload does nothing.  All arguments are taken by
value, and an exception escaping the run of one element aborts the recursion. -/
def TestRunner.RunAll : List RunItem → RunResult (List RunItem)
  | [] => ⟨[], [], none⟩
  | item :: rest =>
      let r := runItem item
      match r.thrown with
      | some e => ⟨r.post :: rest, r.events, some e⟩
      | none =>
          let rs := TestRunner.RunAll rest
          ⟨r.post :: rs.post, r.events ++ rs.events, rs.thrown⟩

/-- Translation of `struct BenchmarkResult` (src/unipp/unipp.hpp lines
94-97): total and average elapsed time; `long long` counts of a nonnegative
millisecond duration are modelled as `Nat`. -/
structure BenchmarkResult where
  total : Nat
  average : Nat
deriving DecidableEq, Repr

/-- Translation of `unipp::Benchmark` (src/unipp/unipp.hpp lines 254-269).
The wall clock is abstracted by `elapsed i`, the millisecond duration measured
for call number `i`; the loop sums those durations into `total_time`, and the
function returns the total count and `total / iterations` (C++ integer
division).  When `iterations = 0` the loop runs zero times and the division
`total_time.count() / iterations` divides by zero, which is undefined
behaviour in C++; the embedding returns `none` there.  The C++ parameter is
`int`; a count is modelled as `Nat` (for a non-positive `int` the loop body
never runs, and `0` is the value reaching the zero division). -/
def Benchmark (elapsed : Nat → Nat) (iterations : Nat) : Option BenchmarkResult :=
  let total := (List.range iterations).foldl (fun acc i => acc + elapsed i) 0
  if iterations = 0 then none
  else some { total := total, average := total / iterations }

/-- Terminal classification lines among a trace: the `PASSED!`,
`WARNING: msg` and `FAILED: msg` lines printed by `UnitTest::Run`. -/
def isTerminal : Event → Bool
  | Event.printPassed => true
  | Event.printWarning _ => true
  | Event.printFailed _ => true
  | _ => false

/-- Terminal classification lines of a trace, in order. -/
def terminal (evs : List Event) : List Event := evs.filter isTerminal

/-- Action invocations recorded in a trace, in order, by test name. -/
def invocations (evs : List Event) : List String :=
  evs.filterMap (fun e => match e with | Event.invoke n => some n | _ => none)

/-- Tests contained in one `RunAll` argument, in order: a suite contributes
its vector of tests, a standalone test contributes itself. -/
def itemTests : RunItem → List UnitTest
  | RunItem.suite s => s.tests_
  | RunItem.test t => [t]

/-- Whether an action behaviour is foreign to the `Warning` / `Fail` taxonomy
of the boundary in `UnitTest::Run`: `true` exactly for an exception that is
neither of the two framework classes. -/
def foreign : ActionResult → Bool
  | ActionResult.other _ => true
  | _ => false

/-- Whether every test of a list stays within the `Warning` / `Fail`
taxonomy, so that the boundary in `UnitTest::Run` catches every throw. -/
def noForeign (ts : List UnitTest) : Bool :=
  ts.all (fun t => !foreign t.test)

end UnippA

namespace UnippB

/-- Translation of `enum SetupAndTeardownType` (src/unipp.hpp lines 91-96). -/
inductive SetupAndTeardownType where
  | NONE : SetupAndTeardownType
  | PER_TEST : SetupAndTeardownType
  | PER_SUITE : SetupAndTeardownType
deriving DecidableEq, Repr

/-- Behaviour of a zero-argument test action for the `src/unipp.hpp` variant:
it returns normally or throws an exception derived from `std::exception`
carrying a message (the `PANIC` macro of this variant throws `std::runtime_error`,
and the suite loop catches `const std::exception&`). -/
inductive BActionResult where
  | normal : BActionResult
  | raises : String → BActionResult
deriving DecidableEq, Repr

/-- Observable events of a variant-B suite run: console lines, user-action
invocations, and the `Setup` / `Teardown` hook calls.  The hooks of
`unipp::TestSuite` are `virtual void Setup() {}` and
`virtual void Teardown() {}` (src/unipp.hpp lines 192-193), empty bodies that
cannot throw, so a hook call is one event. -/
inductive BEvent where
  | printSuiteHeader : String → String → BEvent
  | printRunning : String → BEvent
  | printDescription : String → BEvent
  | setupCall : BEvent
  | teardownCall : BEvent
  | invoke : String → BEvent
  | printPassed : BEvent
  | printFailed : String → BEvent
deriving DecidableEq, Repr

/-- Translation of `struct UnitTest` of `src/unipp.hpp` (lines 103-111): in
this variant a test is plain data with no `Run` method; the suite loop invokes
its `test` member directly. -/
structure UnitTest where
  name : String
  description : String
  test : BActionResult
deriving DecidableEq, Repr

/-- Translation of `class TestSuite` of `src/unipp.hpp` (lines 115-200): name,
description, ordered vector of tests and the setup/teardown policy. -/
structure TestSuite where
  name_ : String
  description_ : String
  tests_ : List UnitTest
  setup_type_ : SetupAndTeardownType
deriving DecidableEq, Repr

/-- Loop body of `unipp::TestSuite::Run` (src/unipp.hpp lines 174-187) for one
test: print the running/description lines, then inside `try` run
`RUN_SETUP_BEFORE_TEST_IF_NEEDED()` (a `Setup` call iff the policy is
`PER_TEST`, lines 70-71), invoke the action, run
`RUN_TEARDOWN_AFTER_TEST_IF_NEEDED()` and print `PASSED!`; an exception thrown
by the action jumps to `catch (const std::exception&)`, which prints
`FAILED: msg` — so the per-test `Teardown` and the `PASSED!` line after the
throwing call are skipped. -/
def runOneTest (st : SetupAndTeardownType) (t : UnitTest) : List BEvent :=
  [BEvent.printRunning t.name, BEvent.printDescription t.description]
    ++ (if st = SetupAndTeardownType.PER_TEST then [BEvent.setupCall] else [])
    ++ (match t.test with
        | BActionResult.normal =>
            [BEvent.invoke t.name]
              ++ (if st = SetupAndTeardownType.PER_TEST
                  then [BEvent.teardownCall] else [])
              ++ [BEvent.printPassed]
        | BActionResult.raises m =>
            [BEvent.invoke t.name, BEvent.printFailed m])

/-- Translation of `unipp::TestSuite::Run` (src/unipp.hpp lines 169-189):
print the suite header, run `RUN_SETUP_BEFORE_SUITE_IF_NEEDED()` (a `Setup`
call iff the policy is `PER_SUITE`, lines 68-69), run every test of the vector
in order, then `RUN_TEARDOWN_AFTER_SUITE_IF_NEEDED()`.  Every exception a test
action throws is caught inside the loop, so the whole trace is always
produced. -/
def TestSuite.Run (s : TestSuite) : List BEvent :=
  [BEvent.printSuiteHeader s.name_ s.description_]
    ++ (if s.setup_type_ = SetupAndTeardownType.PER_SUITE
        then [BEvent.setupCall] else [])
    ++ (s.tests_.map (runOneTest s.setup_type_)).flatten
    ++ (if s.setup_type_ = SetupAndTeardownType.PER_SUITE
        then [BEvent.teardownCall] else [])

/-- Occurrences of the `Setup` hook call in a trace. -/
def countSetup (evs : List BEvent) : Nat :=
  (evs.filter (fun e => e = BEvent.setupCall)).length

/-- Occurrences of the `Teardown` hook call in a trace. -/
def countTeardown (evs : List BEvent) : Nat :=
  (evs.filter (fun e => e = BEvent.teardownCall)).length

/-- Occurrences of action invocations in a variant-B trace. -/
def countInvoke (evs : List BEvent) : Nat :=
  (evs.filter (fun e => match e with | BEvent.invoke _ => true | _ => false)).length

end UnippB

namespace UnippA

theorem invocations_append (a b : List Event) :
    invocations (a ++ b) = invocations a ++ invocations b :=
  List.filterMap_append a b _

theorem terminal_append (a b : List Event) :
    terminal (a ++ b) = terminal a ++ terminal b :=
  List.filter_append a b

theorem unitTest_run_no_foreign (t : UnitTest) (h : foreign t.test = false) :
    t.Run.thrown = none ∧ invocations t.Run.events = [t.name] ∧
      (terminal t.Run.events).length = 1 := by
  cases ht : t.test <;>
    simp [UnitTest.Run, ht, invocations, terminal, isTerminal] <;>
    simp [foreign, ht] at h

theorem runTests_no_foreign (ts : List UnitTest) (h : noForeign ts = true) :
    (runTests ts).thrown = none ∧
      invocations (runTests ts).events = ts.map UnitTest.name ∧
      (terminal (runTests ts).events).length = ts.length := by
  induction ts with
  | nil => simp [runTests, invocations, terminal]
  | cons t ts ih =>
      simp only [noForeign, List.all_cons, Bool.and_eq_true, Bool.not_eq_eq_eq_not,
        Bool.not_true] at h
      obtain ⟨h1, h2⟩ := h
      obtain ⟨hth, hinv, hterm⟩ := unitTest_run_no_foreign t h1
      obtain ⟨ihth, ihinv, ihterm⟩ := ih h2
      simp only [runTests, hth]
      refine ⟨ihth, ?_, ?_⟩
      · simp [invocations_append, hinv, ihinv]
      · rw [terminal_append, List.length_append, hterm, ihterm, List.length_cons]
        omega

theorem suite_run_no_foreign (s : TestSuite) (h : noForeign s.tests_ = true) :
    s.Run.thrown = none ∧
      invocations s.Run.events = s.tests_.map UnitTest.name ∧
      (terminal s.Run.events).length = s.tests_.length := by
  obtain ⟨hth, hinv, hterm⟩ := runTests_no_foreign s.tests_ h
  refine ⟨?_, ?_, ?_⟩ <;> simp only [TestSuite.Run, hth]
  · simpa [invocations, List.filterMap_append] using hinv
  · simpa [terminal, isTerminal, List.filter_append] using hterm

end UnippA

/-- C1: for every test action staying within the `Warning` / `Fail` taxonomy,
`unipp::UnitTest::Run` classifies the outcome into exactly one of three
severities: the trace carries exactly one terminal line, which is
`FAILED: msg` when the action throws `unipp::Fail(msg)`, `WARNING: msg` when
it throws `unipp::Warning(msg)`, and `PASSED!` when it returns without
throwing either; the failing lines carry the message the exception was
constructed with. -/
theorem UnippA.run_classifies_three_severities (t : UnippA.UnitTest)
    (h : UnippA.foreign t.test = false) :
    (t.test = UnippA.ActionResult.normal →
        UnippA.terminal t.Run.events = [UnippA.Event.printPassed]) ∧
    (∀ m, t.test = UnippA.ActionResult.warning m →
        UnippA.terminal t.Run.events = [UnippA.Event.printWarning m]) ∧
    (∀ m, t.test = UnippA.ActionResult.fail m →
        UnippA.terminal t.Run.events = [UnippA.Event.printFailed m]) ∧
    (UnippA.terminal t.Run.events).length = 1 := by
  cases ht : t.test <;>
    simp [UnippA.UnitTest.Run, ht, UnippA.terminal, UnippA.isTerminal] <;>
    simp [UnippA.foreign, ht] at h

/-- Witness for C1 at a concrete warning-raising test. -/
theorem UnippA.run_classifies_three_severities_witness :
    UnippA.foreign (UnippA.ActionResult.warning "w") = false ∧
      UnippA.terminal
          (UnippA.UnitTest.Run ⟨"t", "d", UnippA.ActionResult.warning "w"⟩).events
        = [UnippA.Event.printWarning "w"] :=
  ⟨by decide,
   (UnippA.run_classifies_three_severities
      ⟨"t", "d", UnippA.ActionResult.warning "w"⟩ (by decide)).2.1 "w" rfl⟩

/-- C7: one run of a unit test invokes its zero-argument action exactly once,
whatever the behaviour of the action: in variant A the trace of
`UnitTest::Run` records exactly one invocation, and in variant B the loop body
of `TestSuite::Run` records exactly one invocation for each element, under
every setup/teardown policy. -/
theorem UnippA.action_invoked_exactly_once :
    (∀ t : UnippA.UnitTest, (UnippA.invocations t.Run.events).length = 1) ∧
    (∀ st : UnippB.SetupAndTeardownType, ∀ t : UnippB.UnitTest,
        UnippB.countInvoke (UnippB.runOneTest st t) = 1) := by
  constructor
  · intro t
    cases ht : t.test <;>
      simp [UnippA.UnitTest.Run, ht, UnippA.invocations]
  · intro st t
    cases ht : t.test <;> cases st <;>
      simp [UnippB.runOneTest, ht, UnippB.countInvoke]

/-- C10: in the variant with the `Warning` / `Fail` taxonomy, an action
throwing any other exception is not caught by the boundary of
`UnitTest::Run`: the exception propagates out of the run and the trace carries
no `PASSED` / `WARNING` / `FAILED` line. -/
theorem UnippA.foreign_exception_propagates (t : UnippA.UnitTest) (e : String)
    (h : t.test = UnippA.ActionResult.other e) :
    t.Run.thrown = some e ∧ UnippA.terminal t.Run.events = [] := by
  simp [UnippA.UnitTest.Run, h, UnippA.terminal, UnippA.isTerminal]

/-- Witness for C10 at a concrete test throwing a foreign exception. -/
theorem UnippA.foreign_exception_propagates_witness :
    (UnippA.UnitTest.test ⟨"t", "d", UnippA.ActionResult.other "boom"⟩
        = UnippA.ActionResult.other "boom") ∧
      (UnippA.UnitTest.Run ⟨"t", "d", UnippA.ActionResult.other "boom"⟩).thrown
          = some "boom" ∧
      UnippA.terminal
          (UnippA.UnitTest.Run ⟨"t", "d", UnippA.ActionResult.other "boom"⟩).events
        = [] :=
  ⟨rfl, UnippA.foreign_exception_propagates
          ⟨"t", "d", UnippA.ActionResult.other "boom"⟩ "boom" rfl⟩

namespace UnippA

theorem unitTest_run_post (t : UnitTest) : t.Run.post = t := by
  cases ht : t.test <;> simp [UnitTest.Run, ht]

theorem testSuite_run_post (s : TestSuite) : s.Run.post = s := by
  cases h : (runTests s.tests_).thrown <;> simp [TestSuite.Run, h]

theorem runItem_post (i : RunItem) : (runItem i).post = i := by
  cases i with
  | suite s => simp [runItem, testSuite_run_post]
  | test t => simp [runItem, unitTest_run_post]

theorem foldl_elapsed_eq_sum (elapsed : Nat → Nat) :
    ∀ n : Nat, (List.range n).foldl (fun acc i => acc + elapsed i) 0
      = ∑ i ∈ Finset.range n, elapsed i := by
  intro n
  induction n with
  | zero => simp
  | succ n ih =>
      rw [List.range_succ, List.foldl_append, ih, Finset.sum_range_succ]
      rfl

end UnippA

/-- C8: running a suite or the whole runner leaves the framework state
unchanged: the post-state of `TestSuite::Run` equals the suite before the run
(same name, description and ordered test vector, since the method body assigns
to no member and the range-for copies each test), and `TestRunner::RunAll`
leaves every argument unchanged, so repeated runs observe the same
collection. -/
theorem UnippA.run_leaves_framework_state_unchanged :
    (∀ s : UnippA.TestSuite, s.Run.post = s) ∧
    (∀ items : List UnippA.RunItem,
        (UnippA.TestRunner.RunAll items).post = items) := by
  refine ⟨UnippA.testSuite_run_post, ?_⟩
  intro items
  induction items with
  | nil => rfl
  | cons i rest ih =>
      simp only [UnippA.TestRunner.RunAll]
      cases h : (UnippA.runItem i).thrown <;>
        simp [h, UnippA.runItem_post, ih]

/-- C9: the average of `unipp::Benchmark` is an unguarded integer division by
the iteration count, so the result is well defined only when the count is at
least 1; at count 0 the loop body never runs and `total / iterations` divides
by zero, reachable directly at the public interface. -/
theorem UnippA.benchmark_division_needs_positive_count (elapsed : Nat → Nat) :
    UnippA.Benchmark elapsed 0 = none ∧
    ∀ N : Nat, 1 ≤ N → (UnippA.Benchmark elapsed N).isSome = true := by
  refine ⟨rfl, ?_⟩
  intro N hN
  have hne : N ≠ 0 := by omega
  simp [UnippA.Benchmark, hne]

/-- Witness for C9 at a concrete measured duration and counts 0 and 3. -/
theorem UnippA.benchmark_division_needs_positive_count_witness :
    UnippA.Benchmark (fun _ => 2) 0 = none ∧
      (1 ≤ 3 ∧ (UnippA.Benchmark (fun _ => 2) 3).isSome = true) :=
  ⟨(UnippA.benchmark_division_needs_positive_count (fun _ => 2)).1,
   by decide,
   (UnippA.benchmark_division_needs_positive_count (fun _ => 2)).2 3 (by decide)⟩

/-- C2 counterexample: the claim quantifies over every iteration count, but at
count 0 `unipp::Benchmark` returns no total/average pair at all: the division
`total_time.count() / iterations` divides by zero (undefined behaviour),
modelled as `none`. -/
theorem UnippA.benchmark_zero_iterations_counterexample :
    UnippA.Benchmark (fun _ => 1) 0 = none := rfl

/-- C2 amended: for every action and every iteration count N at least 1,
`unipp::Benchmark` returns the summed elapsed time over the N calls as
`total` and the integer quotient of that total by N as `average`, both in
milliseconds. -/
theorem UnippA.benchmark_total_and_average (elapsed : Nat → Nat) (N : Nat)
    (h : 1 ≤ N) :
    UnippA.Benchmark elapsed N
      = some ⟨∑ i ∈ Finset.range N, elapsed i,
              (∑ i ∈ Finset.range N, elapsed i) / N⟩ := by
  have hne : N ≠ 0 := by omega
  simp [UnippA.Benchmark, hne, UnippA.foldl_elapsed_eq_sum]

/-- Witness for C2 at durations 1, 2, 3 over three calls: total 6,
average 2. -/
theorem UnippA.benchmark_total_and_average_witness :
    1 ≤ 3 ∧ UnippA.Benchmark (fun i => i + 1) 3 = some ⟨6, 2⟩ := by
  refine ⟨by decide, ?_⟩
  rw [UnippA.benchmark_total_and_average (fun i => i + 1) 3 (by decide)]
  decide

namespace UnippA

theorem runItem_no_foreign (i : RunItem) (h : noForeign (itemTests i) = true) :
    (runItem i).thrown = none ∧
      invocations (runItem i).events = (itemTests i).map UnitTest.name := by
  cases i with
  | suite s =>
      obtain ⟨h1, h2, h3⟩ := suite_run_no_foreign s h
      exact ⟨by simp [runItem, h1], by simpa [runItem, itemTests] using h2⟩
  | test t =>
      have hf : foreign t.test = false := by
        simpa [noForeign, itemTests] using h
      obtain ⟨h1, h2, h3⟩ := unitTest_run_no_foreign t hf
      exact ⟨by simp [runItem, h1], by simpa [runItem, itemTests] using h2⟩

end UnippA

/-- C4: `unipp::TestRunner::RunAll` executes a heterogeneous ordered sequence
of suites and standalone tests element by element in the given order, and
within each suite the tests in the order they were added: provided every
action stays within the `Warning` / `Fail` taxonomy, the trace of the whole
run is the concatenation of the per-element traces in sequence order, and the
recorded action invocations are exactly the names of all contained tests in
declaration order, with no interleaving. -/
theorem UnippA.runAll_executes_in_order (items : List UnippA.RunItem)
    (h : UnippA.noForeign (items.flatMap UnippA.itemTests) = true) :
    (UnippA.TestRunner.RunAll items).events
        = (items.map (fun i => (UnippA.runItem i).events)).flatten ∧
    UnippA.invocations (UnippA.TestRunner.RunAll items).events
        = (items.flatMap UnippA.itemTests).map UnippA.UnitTest.name := by
  induction items with
  | nil => exact ⟨rfl, rfl⟩
  | cons i rest ih =>
      rw [List.flatMap_cons] at h
      have hsplit : UnippA.noForeign (UnippA.itemTests i) = true ∧
          UnippA.noForeign (rest.flatMap UnippA.itemTests) = true := by
        simpa [UnippA.noForeign, List.all_append, Bool.and_eq_true] using h
      obtain ⟨h1, h2⟩ := hsplit
      obtain ⟨hth, hinv⟩ := UnippA.runItem_no_foreign i h1
      obtain ⟨ihev, ihinv⟩ := ih h2
      simp only [UnippA.TestRunner.RunAll, hth]
      refine ⟨by simp [ihev], ?_⟩
      simp [UnippA.invocations_append, hinv, ihinv, List.flatMap_cons,
        List.map_append]

/-- Witness for C4 at a sequence of one two-test suite followed by one
standalone test. -/
theorem UnippA.runAll_executes_in_order_witness :
    UnippA.noForeign
        (([UnippA.RunItem.suite ⟨"s", "d",
              [⟨"a", "da", UnippA.ActionResult.normal⟩,
               ⟨"b", "db", UnippA.ActionResult.fail "f"⟩]⟩,
           UnippA.RunItem.test ⟨"c", "dc", UnippA.ActionResult.warning "w"⟩]).flatMap
          UnippA.itemTests) = true ∧
    ((UnippA.TestRunner.RunAll
          [UnippA.RunItem.suite ⟨"s", "d",
              [⟨"a", "da", UnippA.ActionResult.normal⟩,
               ⟨"b", "db", UnippA.ActionResult.fail "f"⟩]⟩,
           UnippA.RunItem.test ⟨"c", "dc", UnippA.ActionResult.warning "w"⟩]).events
        = (([UnippA.RunItem.suite ⟨"s", "d",
                [⟨"a", "da", UnippA.ActionResult.normal⟩,
                 ⟨"b", "db", UnippA.ActionResult.fail "f"⟩]⟩,
             UnippA.RunItem.test ⟨"c", "dc", UnippA.ActionResult.warning "w"⟩]).map
            (fun i => (UnippA.runItem i).events)).flatten ∧
      UnippA.invocations
          (UnippA.TestRunner.RunAll
            [UnippA.RunItem.suite ⟨"s", "d",
                [⟨"a", "da", UnippA.ActionResult.normal⟩,
                 ⟨"b", "db", UnippA.ActionResult.fail "f"⟩]⟩,
             UnippA.RunItem.test ⟨"c", "dc", UnippA.ActionResult.warning "w"⟩]).events
        = (([UnippA.RunItem.suite ⟨"s", "d",
                [⟨"a", "da", UnippA.ActionResult.normal⟩,
                 ⟨"b", "db", UnippA.ActionResult.fail "f"⟩]⟩,
             UnippA.RunItem.test ⟨"c", "dc", UnippA.ActionResult.warning "w"⟩]).flatMap
            UnippA.itemTests).map UnippA.UnitTest.name) :=
  ⟨by decide,
   UnippA.runAll_executes_in_order
     [UnippA.RunItem.suite ⟨"s", "d",
         [⟨"a", "da", UnippA.ActionResult.normal⟩,
          ⟨"b", "db", UnippA.ActionResult.fail "f"⟩]⟩,
      UnippA.RunItem.test ⟨"c", "dc", UnippA.ActionResult.warning "w"⟩]
     (by decide)⟩

/-- C5: a `FAILED` or `WARNING` outcome does not abort a suite run: provided
every action stays within the `Warning` / `Fail` taxonomy that the boundary
catches, every test of the collection is reached — the run invokes each test
of the suite in order and prints exactly one classification line per test. -/
theorem UnippA.suite_run_reaches_every_test (s : UnippA.TestSuite)
    (h : UnippA.noForeign s.tests_ = true) :
    UnippA.invocations s.Run.events = s.tests_.map UnippA.UnitTest.name ∧
    (UnippA.terminal s.Run.events).length = s.tests_.length := by
  obtain ⟨h1, h2, h3⟩ := UnippA.suite_run_no_foreign s h
  exact ⟨h2, h3⟩

/-- Witness for C5 at a suite mixing a failing, a warning and a passing
test. -/
theorem UnippA.suite_run_reaches_every_test_witness :
    UnippA.noForeign
        (UnippA.TestSuite.tests_ ⟨"s", "d",
          [⟨"a", "da", UnippA.ActionResult.fail "f"⟩,
           ⟨"b", "db", UnippA.ActionResult.warning "w"⟩,
           ⟨"c", "dc", UnippA.ActionResult.normal⟩]⟩) = true ∧
    (UnippA.invocations
        (UnippA.TestSuite.Run ⟨"s", "d",
          [⟨"a", "da", UnippA.ActionResult.fail "f"⟩,
           ⟨"b", "db", UnippA.ActionResult.warning "w"⟩,
           ⟨"c", "dc", UnippA.ActionResult.normal⟩]⟩).events
      = (UnippA.TestSuite.tests_ ⟨"s", "d",
          [⟨"a", "da", UnippA.ActionResult.fail "f"⟩,
           ⟨"b", "db", UnippA.ActionResult.warning "w"⟩,
           ⟨"c", "dc", UnippA.ActionResult.normal⟩]⟩).map UnippA.UnitTest.name ∧
    (UnippA.terminal
        (UnippA.TestSuite.Run ⟨"s", "d",
          [⟨"a", "da", UnippA.ActionResult.fail "f"⟩,
           ⟨"b", "db", UnippA.ActionResult.warning "w"⟩,
           ⟨"c", "dc", UnippA.ActionResult.normal⟩]⟩).events).length
      = (UnippA.TestSuite.tests_ ⟨"s", "d",
          [⟨"a", "da", UnippA.ActionResult.fail "f"⟩,
           ⟨"b", "db", UnippA.ActionResult.warning "w"⟩,
           ⟨"c", "dc", UnippA.ActionResult.normal⟩]⟩).length) :=
  ⟨by decide,
   UnippA.suite_run_reaches_every_test ⟨"s", "d",
      [⟨"a", "da", UnippA.ActionResult.fail "f"⟩,
       ⟨"b", "db", UnippA.ActionResult.warning "w"⟩,
       ⟨"c", "dc", UnippA.ActionResult.normal⟩]⟩ (by decide)⟩

namespace UnippB

theorem countSetup_append (a b : List BEvent) :
    countSetup (a ++ b) = countSetup a + countSetup b := by
  simp [countSetup, List.filter_append]

theorem countTeardown_append (a b : List BEvent) :
    countTeardown (a ++ b) = countTeardown a + countTeardown b := by
  simp [countTeardown, List.filter_append]

theorem countSetup_runOneTest (st : SetupAndTeardownType) (t : UnitTest) :
    countSetup (runOneTest st t)
      = if st = SetupAndTeardownType.PER_TEST then 1 else 0 := by
  cases ht : t.test <;> cases st <;> simp [runOneTest, ht, countSetup]

theorem countTeardown_runOneTest (st : SetupAndTeardownType) (t : UnitTest) :
    countTeardown (runOneTest st t)
      = if st = SetupAndTeardownType.PER_TEST ∧ t.test = BActionResult.normal
        then 1 else 0 := by
  cases ht : t.test <;> cases st <;> simp [runOneTest, ht, countTeardown]

theorem countSetup_nil : countSetup [] = 0 := rfl

theorem countTeardown_nil : countTeardown [] = 0 := rfl

theorem countSetup_cons_of_ne (e : BEvent) (l : List BEvent)
    (he : e ≠ BEvent.setupCall) : countSetup (e :: l) = countSetup l := by
  simp [countSetup, List.filter_cons, he]

theorem countTeardown_cons_of_ne (e : BEvent) (l : List BEvent)
    (he : e ≠ BEvent.teardownCall) : countTeardown (e :: l) = countTeardown l := by
  simp [countTeardown, List.filter_cons, he]

theorem countSetup_cons_setup (l : List BEvent) :
    countSetup (BEvent.setupCall :: l) = countSetup l + 1 := by
  simp [countSetup, List.filter_cons]

theorem countTeardown_cons_teardown (l : List BEvent) :
    countTeardown (BEvent.teardownCall :: l) = countTeardown l + 1 := by
  simp [countTeardown, List.filter_cons]

theorem countSetup_flatten (st : SetupAndTeardownType) (ts : List UnitTest) :
    countSetup ((ts.map (runOneTest st)).flatten)
      = if st = SetupAndTeardownType.PER_TEST then ts.length else 0 := by
  induction ts with
  | nil => cases st <;> simp [countSetup]
  | cons t ts ih =>
      rcases eq_or_ne st SetupAndTeardownType.PER_TEST with hst | hst
      · subst hst
        simp [countSetup_append, countSetup_runOneTest, ih] <;> omega
      · simp [countSetup_append, countSetup_runOneTest, hst, ih]

theorem countTeardown_flatten (st : SetupAndTeardownType) (ts : List UnitTest) :
    countTeardown ((ts.map (runOneTest st)).flatten)
      = if st = SetupAndTeardownType.PER_TEST
        then (ts.filter (fun t => t.test = BActionResult.normal)).length
        else 0 := by
  induction ts with
  | nil => cases st <;> simp [countTeardown]
  | cons t ts ih =>
      rcases eq_or_ne st SetupAndTeardownType.PER_TEST with hst | hst
      · subst hst
        by_cases ht : t.test = BActionResult.normal <;>
          simp [countTeardown_append, countTeardown_runOneTest, ih,
            List.filter_cons, ht] <;>
          omega
      · simp [countTeardown_append, countTeardown_runOneTest, hst, ih]

theorem runOneTest_per_test (t : UnitTest) :
    runOneTest SetupAndTeardownType.PER_TEST t
      = [BEvent.printRunning t.name, BEvent.printDescription t.description,
         BEvent.setupCall, BEvent.invoke t.name]
        ++ (match t.test with
            | BActionResult.normal =>
                [BEvent.teardownCall, BEvent.printPassed]
            | BActionResult.raises m => [BEvent.printFailed m]) := by
  cases ht : t.test <;> simp [runOneTest, ht]

theorem run_events (s : TestSuite) :
    s.Run = BEvent.printSuiteHeader s.name_ s.description_ ::
      ((if s.setup_type_ = SetupAndTeardownType.PER_SUITE
          then [BEvent.setupCall] else [])
        ++ (s.tests_.map (runOneTest s.setup_type_)).flatten
        ++ (if s.setup_type_ = SetupAndTeardownType.PER_SUITE
            then [BEvent.teardownCall] else [])) := by
  simp [TestSuite.Run]

end UnippB

/-- C3 counterexample: a suite with the `PER_TEST` policy whose single test
action throws records one `Setup` call but no `Teardown` call at all, because
`RUN_TEARDOWN_AFTER_TEST_IF_NEEDED()` sits after the action inside the `try`
block and the throw jumps straight to the `catch`; this contradicts the claim
that `Teardown` is invoked after the action for every element regardless of
the outcome of that element. -/
theorem UnippB.per_test_teardown_skipped_counterexample :
    (UnippB.TestSuite.setup_type_
        ⟨"s", "d", [⟨"t", "dt", UnippB.BActionResult.raises "boom"⟩],
          UnippB.SetupAndTeardownType.PER_TEST⟩
      = UnippB.SetupAndTeardownType.PER_TEST) ∧
    UnippB.countSetup
        (UnippB.TestSuite.Run
          ⟨"s", "d", [⟨"t", "dt", UnippB.BActionResult.raises "boom"⟩],
            UnippB.SetupAndTeardownType.PER_TEST⟩) = 1 ∧
    UnippB.countTeardown
        (UnippB.TestSuite.Run
          ⟨"s", "d", [⟨"t", "dt", UnippB.BActionResult.raises "boom"⟩],
            UnippB.SetupAndTeardownType.PER_TEST⟩) = 0 := by
  decide

/-- C3 amended: for every suite with the `PER_TEST` policy, running the suite
invokes `Setup` before the action of each element for every element of the suite,
but invokes `Teardown` after the action only for the elements whose action
completes normally: an element whose action throws skips its `Teardown` (and
the number of `Setup` calls is the number of elements, while the number of
`Teardown` calls is the number of elements that pass). -/
theorem UnippB.per_test_hooks (s : UnippB.TestSuite)
    (h : s.setup_type_ = UnippB.SetupAndTeardownType.PER_TEST) :
    s.Run = [UnippB.BEvent.printSuiteHeader s.name_ s.description_]
        ++ (s.tests_.map (fun t =>
              [UnippB.BEvent.printRunning t.name,
               UnippB.BEvent.printDescription t.description,
               UnippB.BEvent.setupCall, UnippB.BEvent.invoke t.name]
              ++ (match t.test with
                  | UnippB.BActionResult.normal =>
                      [UnippB.BEvent.teardownCall, UnippB.BEvent.printPassed]
                  | UnippB.BActionResult.raises m =>
                      [UnippB.BEvent.printFailed m]))).flatten ∧
    UnippB.countSetup s.Run = s.tests_.length ∧
    UnippB.countTeardown s.Run
      = (s.tests_.filter
          (fun t => t.test = UnippB.BActionResult.normal)).length := by
  have hfun : UnippB.runOneTest UnippB.SetupAndTeardownType.PER_TEST
      = fun t => [UnippB.BEvent.printRunning t.name,
                  UnippB.BEvent.printDescription t.description,
                  UnippB.BEvent.setupCall, UnippB.BEvent.invoke t.name]
          ++ (match t.test with
              | UnippB.BActionResult.normal =>
                  [UnippB.BEvent.teardownCall, UnippB.BEvent.printPassed]
              | UnippB.BActionResult.raises m =>
                  [UnippB.BEvent.printFailed m]) :=
    funext UnippB.runOneTest_per_test
  refine ⟨?_, ?_, ?_⟩
  · rw [UnippB.run_events, h, hfun]
    simp
  · rw [UnippB.run_events, UnippB.countSetup_cons_of_ne _ _ (by simp), h]
    simp [UnippB.countSetup_append, UnippB.countSetup_flatten,
      UnippB.countSetup_nil]
  · rw [UnippB.run_events, UnippB.countTeardown_cons_of_ne _ _ (by simp), h]
    simp [UnippB.countTeardown_append, UnippB.countTeardown_flatten,
      UnippB.countTeardown_nil]

/-- Witness for the amended C3 at a two-test `PER_TEST` suite with one passing
and one throwing element. -/
theorem UnippB.per_test_hooks_witness :
    (UnippB.TestSuite.setup_type_
        ⟨"s", "d", [⟨"a", "da", UnippB.BActionResult.normal⟩,
                    ⟨"b", "db", UnippB.BActionResult.raises "x"⟩],
          UnippB.SetupAndTeardownType.PER_TEST⟩
      = UnippB.SetupAndTeardownType.PER_TEST) ∧
    UnippB.countSetup
        (UnippB.TestSuite.Run
          ⟨"s", "d", [⟨"a", "da", UnippB.BActionResult.normal⟩,
                      ⟨"b", "db", UnippB.BActionResult.raises "x"⟩],
            UnippB.SetupAndTeardownType.PER_TEST⟩) = 2 ∧
    UnippB.countTeardown
        (UnippB.TestSuite.Run
          ⟨"s", "d", [⟨"a", "da", UnippB.BActionResult.normal⟩,
                      ⟨"b", "db", UnippB.BActionResult.raises "x"⟩],
            UnippB.SetupAndTeardownType.PER_TEST⟩) = 1 := by
  have h := UnippB.per_test_hooks
    ⟨"s", "d", [⟨"a", "da", UnippB.BActionResult.normal⟩,
                ⟨"b", "db", UnippB.BActionResult.raises "x"⟩],
      UnippB.SetupAndTeardownType.PER_TEST⟩ rfl
  exact ⟨rfl, by rw [h.2.1]; decide, by rw [h.2.2]; decide⟩

/-- C6: for every suite with the `PER_SUITE` policy, running the suite
invokes `Setup` exactly once, before the first test of the sequence, and
`Teardown` exactly once, after the last test of the sequence (the trace is the
header, one `Setup` call, the per-test traces — which contain no hook call —
and one final `Teardown` call); with the `NONE` policy neither hook is ever
invoked. -/
theorem UnippB.per_suite_hooks (s : UnippB.TestSuite) :
    (s.setup_type_ = UnippB.SetupAndTeardownType.PER_SUITE →
        s.Run = [UnippB.BEvent.printSuiteHeader s.name_ s.description_,
                 UnippB.BEvent.setupCall]
            ++ (s.tests_.map
                  (UnippB.runOneTest UnippB.SetupAndTeardownType.PER_SUITE)).flatten
            ++ [UnippB.BEvent.teardownCall] ∧
        UnippB.countSetup s.Run = 1 ∧ UnippB.countTeardown s.Run = 1) ∧
    (s.setup_type_ = UnippB.SetupAndTeardownType.NONE →
        UnippB.countSetup s.Run = 0 ∧ UnippB.countTeardown s.Run = 0) := by
  constructor
  · intro h
    refine ⟨?_, ?_, ?_⟩
    · rw [UnippB.run_events, h]
      simp
    · rw [UnippB.run_events, UnippB.countSetup_cons_of_ne _ _ (by simp), h]
      simp [UnippB.countSetup_append, UnippB.countSetup_flatten,
        UnippB.countSetup_nil, UnippB.countSetup_cons_setup,
        UnippB.countSetup_cons_of_ne]
    · rw [UnippB.run_events, UnippB.countTeardown_cons_of_ne _ _ (by simp), h]
      simp [UnippB.countTeardown_append, UnippB.countTeardown_flatten,
        UnippB.countTeardown_nil, UnippB.countTeardown_cons_teardown,
        UnippB.countTeardown_cons_of_ne]
  · intro h
    constructor
    · rw [UnippB.run_events, UnippB.countSetup_cons_of_ne _ _ (by simp), h]
      simp [UnippB.countSetup_append, UnippB.countSetup_flatten,
        UnippB.countSetup_nil]
    · rw [UnippB.run_events, UnippB.countTeardown_cons_of_ne _ _ (by simp), h]
      simp [UnippB.countTeardown_append, UnippB.countTeardown_flatten,
        UnippB.countTeardown_nil]

/-- Witness for C6 at a concrete `PER_SUITE` suite with a passing and a
throwing test, and at a concrete `NONE` suite. -/
theorem UnippB.per_suite_hooks_witness :
    (UnippB.TestSuite.Run
          ⟨"s", "d", [⟨"a", "da", UnippB.BActionResult.normal⟩,
                      ⟨"b", "db", UnippB.BActionResult.raises "x"⟩],
            UnippB.SetupAndTeardownType.PER_SUITE⟩
        = [UnippB.BEvent.printSuiteHeader "s" "d", UnippB.BEvent.setupCall]
            ++ (([⟨"a", "da", UnippB.BActionResult.normal⟩,
                  ⟨"b", "db", UnippB.BActionResult.raises "x"⟩] :
                    List UnippB.UnitTest).map
                  (UnippB.runOneTest UnippB.SetupAndTeardownType.PER_SUITE)).flatten
            ++ [UnippB.BEvent.teardownCall] ∧
      UnippB.countSetup
          (UnippB.TestSuite.Run
            ⟨"s", "d", [⟨"a", "da", UnippB.BActionResult.normal⟩,
                        ⟨"b", "db", UnippB.BActionResult.raises "x"⟩],
              UnippB.SetupAndTeardownType.PER_SUITE⟩) = 1 ∧
      UnippB.countTeardown
          (UnippB.TestSuite.Run
            ⟨"s", "d", [⟨"a", "da", UnippB.BActionResult.normal⟩,
                        ⟨"b", "db", UnippB.BActionResult.raises "x"⟩],
              UnippB.SetupAndTeardownType.PER_SUITE⟩) = 1) ∧
    (UnippB.countSetup
        (UnippB.TestSuite.Run
          ⟨"n", "dn", [⟨"a", "da", UnippB.BActionResult.normal⟩],
            UnippB.SetupAndTeardownType.NONE⟩) = 0 ∧
      UnippB.countTeardown
        (UnippB.TestSuite.Run
          ⟨"n", "dn", [⟨"a", "da", UnippB.BActionResult.normal⟩],
            UnippB.SetupAndTeardownType.NONE⟩) = 0) :=
  ⟨(UnippB.per_suite_hooks
      ⟨"s", "d", [⟨"a", "da", UnippB.BActionResult.normal⟩,
                  ⟨"b", "db", UnippB.BActionResult.raises "x"⟩],
        UnippB.SetupAndTeardownType.PER_SUITE⟩).1 rfl,
   (UnippB.per_suite_hooks
      ⟨"n", "dn", [⟨"a", "da", UnippB.BActionResult.normal⟩],
        UnippB.SetupAndTeardownType.NONE⟩).2 rfl⟩




